import Mathlib

/-!
Verification development for the communications_db repository
(Django app `communication`): a shallow embedding of the data model
(models.py), the permission predicates (permissions.py), the engagement
operations (views.py) and the m2m signal handlers (signals.py), together
with theorems settling the frozen specification claims.

Conventions of the embedding:
* Django many-to-many user sets become `Finset Nat` of user ids
  (`.add` = `insert`, `.remove` = `erase`, both idempotent like the ORM).
* `timezone.now()` and datetimes become `Int` timestamps; an `Event`
  stores `date` (day number) and `time` (seconds within the day), and
  `datetime.combine(date, time)` becomes `date * 86400 + time`.
* The calendar day of a timestamp (`viewed_at__date`) is floor division
  by 86400.
* Append-only log tables become Lean lists in creation order.
* Fallible / permission-gated endpoints return `Bool × State`: the
  flag is `true` on success, and on denial (HTTP 403) the state is
  returned unchanged, matching DRF checking object permissions before
  the view body runs.
-/

namespace Communication

/-- A row of the auth user table: id plus the two flags the app reads
(`is_staff` capability flag, `is_active`). -/
structure User where
  id : Nat
  is_staff : Bool
  is_active : Bool
deriving DecidableEq, Repr

/-- `communication.models.Group`: member and owner id sets (the fields the
visibility logic reads). -/
structure Group where
  id : Nat
  members : Finset Nat
  owners : Finset Nat
deriving DecidableEq

/-- `Broadcast.AUDIENCE_CHOICES`. -/
inductive AudienceType where
  | all
  | groups
  | users
deriving DecidableEq, BEq, Repr

/-- `Event.RSVP_STATUS`. -/
inductive RSVPStatus where
  | yes
  | no
  | maybe
deriving DecidableEq, BEq, Repr

/-- `communication.models.Broadcast`, restricted to the fields the
visibility, engagement and analytics logic reads.  Target groups are
embedded inline (the m2m join to `Group` rows). -/
structure Broadcast where
  start_date : Int
  end_date : Int
  audience_type : AudienceType
  target_groups : List Group
  target_users : Finset Nat
  acknowledged_by : Finset Nat
  viewed_by : Finset Nat
  is_published : Bool
  is_active : Bool
  created_by : Nat
deriving DecidableEq

/-- `communication.models.Event`, restricted to the fields the logic
reads.  `date` is a day number, `time` seconds within the day. -/
structure Event where
  date : Int
  time : Int
  is_active : Bool
  rsvp_yes : Finset Nat
  rsvp_no : Finset Nat
  rsvp_maybe : Finset Nat
  visible_to_groups : List Group
  visible_to_users : Finset Nat
  is_public : Bool
  created_by : Nat
deriving DecidableEq

/-- A `communication.models.BroadcastView` row (view log; the table has a
uniqueness constraint on (broadcast, user), modelled in `mark_viewed`
through `get_or_create`). -/
structure BroadcastView where
  user : Nat
  viewed_at : Int
  ip_address : Option String
deriving DecidableEq

/-- A `communication.models.EventRSVPLog` row. -/
structure EventRSVPLog where
  user : Nat
  old_status : Option RSVPStatus
  new_status : RSVPStatus
  changed_at : Int
deriving DecidableEq

/-- The user table, needed by `Broadcast.total_recipients` for
`audience_type = all`. -/
structure Env where
  users : List User
deriving DecidableEq

/-- Per-broadcast mutable state: the broadcast row plus its
`BroadcastView` log rows in creation order. -/
structure BroadcastState where
  broadcast : Broadcast
  view_logs : List BroadcastView
deriving DecidableEq

/-- Per-event mutable state: the event row plus its `EventRSVPLog` rows
in creation order. -/
structure EventState where
  event : Event
  rsvp_logs : List EventRSVPLog
deriving DecidableEq

/-- `Broadcast.is_visible` (models.py): `start_date <= now <= end_date
and is_published and is_active`.  Note both bounds are inclusive. -/
def Broadcast.is_visible (b : Broadcast) (now : Int) : Bool :=
  decide (b.start_date ≤ now) && decide (now ≤ b.end_date)
    && b.is_published && b.is_active

/-- `IsBroadcastOwnerOrAdmin.can_view_broadcast` (permissions.py):
requires `is_visible`, then dispatches on `audience_type`.  There is no
staff or creator branch in this predicate. -/
def can_view_broadcast (u : User) (b : Broadcast) (now : Int) : Bool :=
  if !(b.is_visible now) then false
  else
    match b.audience_type with
    | .all => true
    | .groups => b.target_groups.any (fun g => decide (u.id ∈ g.members))
    | .users => decide (u.id ∈ b.target_users)

/-- `CanAcknowledgeBroadcast.has_object_permission` (permissions.py):
the same liveness-then-targeting test as `can_view_broadcast`. -/
def can_acknowledge_broadcast (u : User) (b : Broadcast) (now : Int) : Bool :=
  if !(b.is_visible now) then false
  else
    match b.audience_type with
    | .all => true
    | .groups => b.target_groups.any (fun g => decide (u.id ∈ g.members))
    | .users => decide (u.id ∈ b.target_users)

/-- `Broadcast.total_recipients` (models.py): all → active users in the
user table; groups → distinct users who are members of any target
group; users → size of `target_users`. -/
def total_recipients (env : Env) (b : Broadcast) : Nat :=
  match b.audience_type with
  | .all => (env.users.filter (fun u => u.is_active)).length
  | .groups =>
    (b.target_groups.foldr (fun (g : Group) (acc : Finset Nat) => g.members ∪ acc) ∅).card
  | .users => b.target_users.card

/-- `Broadcast.acknowledgment_rate` (models.py): `0` when
`total_recipients == 0`, else `(acknowledged_by.count() / total) * 100`
as exact rational arithmetic.  No clamping is performed. -/
def acknowledgment_rate (env : Env) (b : Broadcast) : ℚ :=
  let total := total_recipients env b
  if total = 0 then 0
  else ((b.acknowledged_by.card : ℚ) / (total : ℚ)) * 100

/-- `Event.is_upcoming` (models.py):
`datetime.combine(date, time) > timezone.now()` (strict). -/
def Event.is_upcoming (e : Event) (now : Int) : Bool :=
  decide (e.date * 86400 + e.time > now)

/-- `Event.get_user_rsvp_status` (models.py): membership checked in
priority order yes → no → maybe, `None` when in no set. -/
def Event.get_user_rsvp_status (e : Event) (uid : Nat) : Option RSVPStatus :=
  if uid ∈ e.rsvp_yes then some .yes
  else if uid ∈ e.rsvp_no then some .no
  else if uid ∈ e.rsvp_maybe then some .maybe
  else none

/-- `Event.user_can_view` (models.py): public, or creator, or directly
visible, or member of a visible group.  No staff branch. -/
def Event.user_can_view (e : Event) (u : User) : Bool :=
  if e.is_public then true
  else if e.created_by = u.id then true
  else if u.id ∈ e.visible_to_users then true
  else if e.visible_to_groups.any (fun g => decide (u.id ∈ g.members)) then true
  else false

/-- `CanRSVPToEvent.has_object_permission` (permissions.py):
`obj.user_can_view(request.user) and obj.is_upcoming`. -/
def can_rsvp_to_event (u : User) (e : Event) (now : Int) : Bool :=
  e.user_can_view u && e.is_upcoming now

/-- Safe-method test used by the DRF permission classes:
`request.method in ['GET', 'HEAD', 'OPTIONS']`. -/
def is_safe_method (m : String) : Bool :=
  m == "GET" || m == "HEAD" || m == "OPTIONS"

/-- `IsBroadcastOwnerOrAdmin.has_object_permission` (permissions.py):
safe methods require `can_view_broadcast`; write methods require staff
or creator.  The `mark_viewed` action declares no permission classes of
its own, so it inherits this class from the viewset. -/
def broadcast_has_object_permission
    (method : String) (u : User) (b : Broadcast) (now : Int) : Bool :=
  if is_safe_method method then can_view_broadcast u b now
  else u.is_staff || decide (b.created_by = u.id)

/-- `BroadcastViewSet.get_queryset` (views.py) over the class queryset
`Broadcast.objects.filter(is_active=True)`: staff get it unfiltered,
others get the audience-targeting filter. -/
def broadcast_get_queryset (u : User) (table : List Broadcast) : List Broadcast :=
  let qs := table.filter (fun b => b.is_active)
  if u.is_staff then qs
  else qs.filter (fun b =>
    (b.audience_type == .all)
    || (b.audience_type == .groups
          && b.target_groups.any (fun g => decide (u.id ∈ g.members)))
    || (b.audience_type == .users && decide (u.id ∈ b.target_users))
    || decide (b.created_by = u.id))

/-- `EventViewSet.get_queryset` (views.py) over
`Event.objects.filter(is_active=True)`: staff get it unfiltered, others
the visibility filter. -/
def event_get_queryset (u : User) (table : List Event) : List Event :=
  let qs := table.filter (fun e => e.is_active)
  if u.is_staff then qs
  else qs.filter (fun e =>
    e.is_public
    || decide (u.id ∈ e.visible_to_users)
    || e.visible_to_groups.any (fun g => decide (u.id ∈ g.members))
    || decide (e.created_by = u.id))

/-- `BroadcastViewSet.acknowledge` view body (views.py) after a valid
serializer: `acknowledged_by.add(user)` or `.remove(user)`.  The
`broadcast_acknowledged` m2m signal handler (signals.py) only `pass`es,
so nothing else changes and no row of any log table is created. -/
def acknowledge (bs : BroadcastState) (uid : Nat) (acknowledged : Bool) : BroadcastState :=
  if acknowledged then
    { bs with broadcast :=
        { bs.broadcast with acknowledged_by := insert uid bs.broadcast.acknowledged_by } }
  else
    { bs with broadcast :=
        { bs.broadcast with acknowledged_by := bs.broadcast.acknowledged_by.erase uid } }

/-- `BroadcastViewSet.mark_viewed` view body (views.py): when the user
is not yet in `viewed_by`, add them and `get_or_create` the
`BroadcastView` row keyed on (broadcast, user); otherwise a no-op. -/
def mark_viewed (bs : BroadcastState) (uid : Nat) (now : Int) (ip : Option String) :
    BroadcastState :=
  if uid ∈ bs.broadcast.viewed_by then bs
  else
    { broadcast := { bs.broadcast with viewed_by := insert uid bs.broadcast.viewed_by },
      view_logs :=
        if bs.view_logs.any (fun r => r.user == uid) then bs.view_logs
        else bs.view_logs ++ [⟨uid, now, ip⟩] }

/-- The `mark_viewed` endpoint including its object permission: the
action declares no `permission_classes`, so DRF applies the viewset's
`IsBroadcastOwnerOrAdmin` with method POST before the body runs; on
denial the response is 403 and the state is untouched. -/
def mark_viewed_request (bs : BroadcastState) (u : User) (now : Int) (ip : Option String) :
    Bool × BroadcastState :=
  if broadcast_has_object_permission "POST" u bs.broadcast now then
    (true, mark_viewed bs u.id now ip)
  else (false, bs)

/-- `event.rsvp_yes.remove(user)` etc. (views.py): the m2m
`post_remove` signal fires but every handler in signals.py ignores it,
so removal logs nothing. -/
def removeAllRSVP (e : Event) (uid : Nat) : Event :=
  { e with rsvp_yes := e.rsvp_yes.erase uid,
           rsvp_no := e.rsvp_no.erase uid,
           rsvp_maybe := e.rsvp_maybe.erase uid }

/-- An m2m `.add(uid)` on one RSVP set together with its `m2m_changed`
`post_add` handler (signals.py `event_rsvp_yes_changed` etc.): when the
id is actually inserted the handler creates an `EventRSVPLog` row with
`old_status=None` and `new_status` the set's status; when the id was
already present Django sends no ids and no row is created. -/
def m2mAddLog (uid : Nat) (st : RSVPStatus) (now : Int)
    (s : Finset Nat) (logs : List EventRSVPLog) : Finset Nat × List EventRSVPLog :=
  if uid ∈ s then (s, logs)
  else (insert uid s, logs ++ [⟨uid, none, st, now⟩])

/-- `EventViewSet.rsvp` view body (views.py) after a valid serializer:
read the old status, remove the user from all three sets, add to the
requested set (firing the signal handler), then explicitly create the
`EventRSVPLog` row recording (old_status, new_status). -/
def rsvp (es : EventState) (uid : Nat) (new_status : RSVPStatus) (now : Int) : EventState :=
  let old_status := es.event.get_user_rsvp_status uid
  let e1 := removeAllRSVP es.event uid
  match new_status with
  | .yes =>
    let p := m2mAddLog uid .yes now e1.rsvp_yes es.rsvp_logs
    { event := { e1 with rsvp_yes := p.1 },
      rsvp_logs := p.2 ++ [⟨uid, old_status, .yes, now⟩] }
  | .no =>
    let p := m2mAddLog uid .no now e1.rsvp_no es.rsvp_logs
    { event := { e1 with rsvp_no := p.1 },
      rsvp_logs := p.2 ++ [⟨uid, old_status, .no, now⟩] }
  | .maybe =>
    let p := m2mAddLog uid .maybe now e1.rsvp_maybe es.rsvp_logs
    { event := { e1 with rsvp_maybe := p.1 },
      rsvp_logs := p.2 ++ [⟨uid, old_status, .maybe, now⟩] }

/-- The `rsvp` endpoint including its `CanRSVPToEvent` object
permission: on denial the response is 403 and the state is untouched. -/
def rsvp_request (es : EventState) (u : User) (st : RSVPStatus) (now : Int) :
    Bool × EventState :=
  if can_rsvp_to_event u es.event now then (true, rsvp es u.id st now)
  else (false, es)

/-- A finite sequence of `rsvp` endpoint calls, each by some user with
some requested status at some time, executed in order. -/
def applyRSVPs (es : EventState) (ops : List (User × RSVPStatus × Int)) : EventState :=
  ops.foldl (fun s op => (rsvp_request s op.1 op.2.1 op.2.2).2) es

/-- The calendar day of a timestamp (`viewed_at__date`). -/
def dateOf (ts : Int) : Int := Int.fdiv ts 86400

/-- The `while current_date <= end_date` loop of
`BroadcastViewSet.analytics` (views.py), unrolled over its iteration
count: one `(date, count)` bucket per day starting at `current`,
counting view-log rows whose day equals the bucket's day. -/
def daily_views_aux (rows : List BroadcastView) (current : Int) :
    Nat → List (Int × Nat)
  | 0 => []
  | n + 1 =>
    (current, (rows.filter (fun r => dateOf r.viewed_at == current)).length)
      :: daily_views_aux rows (current + 1) n

/-- The `daily_views` series of `BroadcastViewSet.analytics` (views.py):
`start_date = today - 30`, then the loop runs while
`current_date <= today`, i.e. `today - start_date + 1` times. -/
def broadcast_daily_views (rows : List BroadcastView) (today : Int) : List (Int × Nat) :=
  let start_date := today - 30
  daily_views_aux rows start_date (today - start_date + 1).toNat

/-- RSVP mutual exclusion for one user: membership in at most one of
the three sets. -/
def atMostOneRSVP (e : Event) (uid : Nat) : Prop :=
  (uid ∈ e.rsvp_yes → uid ∉ e.rsvp_no ∧ uid ∉ e.rsvp_maybe) ∧
  (uid ∈ e.rsvp_no → uid ∉ e.rsvp_maybe)

instance (e : Event) (uid : Nat) : Decidable (atMostOneRSVP e uid) := by
  unfold atMostOneRSVP; infer_instance

/-- The spec-side targeting formula for broadcast visibility, per
audience mode: `all` targets everyone, `groups` targets members of some
target group, `users` targets the listed users. -/
def broadcastTargeted (u : User) (b : Broadcast) : Prop :=
  match b.audience_type with
  | .all => True
  | .groups => ∃ g ∈ b.target_groups, u.id ∈ g.members
  | .users => u.id ∈ b.target_users

/-! ### Helper lemmas about the `rsvp` operation -/

lemma rsvp_logs_eq (es : EventState) (uid : Nat) (st : RSVPStatus) (now : Int) :
    (rsvp es uid st now).rsvp_logs =
      es.rsvp_logs ++
        [⟨uid, none, st, now⟩, ⟨uid, es.event.get_user_rsvp_status uid, st, now⟩] := by
  cases st <;>
    simp [rsvp, m2mAddLog, removeAllRSVP, Finset.not_mem_erase]

lemma rsvp_mem_yes (es : EventState) (uid : Nat) (st : RSVPStatus) (now : Int) (v : Nat) :
    v ∈ (rsvp es uid st now).event.rsvp_yes ↔
      (st = .yes ∧ v = uid) ∨ (v ∈ es.event.rsvp_yes ∧ v ≠ uid) := by
  cases st <;>
    simp [rsvp, m2mAddLog, removeAllRSVP, Finset.not_mem_erase,
      Finset.mem_insert, Finset.mem_erase] <;>
    tauto

lemma rsvp_mem_no (es : EventState) (uid : Nat) (st : RSVPStatus) (now : Int) (v : Nat) :
    v ∈ (rsvp es uid st now).event.rsvp_no ↔
      (st = .no ∧ v = uid) ∨ (v ∈ es.event.rsvp_no ∧ v ≠ uid) := by
  cases st <;>
    simp [rsvp, m2mAddLog, removeAllRSVP, Finset.not_mem_erase,
      Finset.mem_insert, Finset.mem_erase] <;>
    tauto

lemma rsvp_mem_maybe (es : EventState) (uid : Nat) (st : RSVPStatus) (now : Int) (v : Nat) :
    v ∈ (rsvp es uid st now).event.rsvp_maybe ↔
      (st = .maybe ∧ v = uid) ∨ (v ∈ es.event.rsvp_maybe ∧ v ≠ uid) := by
  cases st <;>
    simp [rsvp, m2mAddLog, removeAllRSVP, Finset.not_mem_erase,
      Finset.mem_insert, Finset.mem_erase] <;>
    tauto

lemma rsvp_preserves_atMostOne (es : EventState) (uid : Nat) (st : RSVPStatus)
    (now : Int) (v : Nat) (h : atMostOneRSVP es.event v) :
    atMostOneRSVP (rsvp es uid st now).event v := by
  obtain ⟨h1, h2⟩ := h
  constructor
  · intro hy
    rw [rsvp_mem_yes] at hy
    constructor
    · rw [rsvp_mem_no]
      rcases hy with ⟨hst, rfl⟩ | ⟨hv, hne⟩
      · rintro (⟨hst2, -⟩ | ⟨-, hne⟩)
        · cases hst ▸ hst2
        · exact hne rfl
      · rintro (⟨-, rfl⟩ | ⟨hv2, -⟩)
        · exact hne rfl
        · exact (h1 hv).1 hv2
    · rw [rsvp_mem_maybe]
      rcases hy with ⟨hst, rfl⟩ | ⟨hv, hne⟩
      · rintro (⟨hst2, -⟩ | ⟨-, hne⟩)
        · cases hst ▸ hst2
        · exact hne rfl
      · rintro (⟨-, rfl⟩ | ⟨hv2, -⟩)
        · exact hne rfl
        · exact (h1 hv).2 hv2
  · intro hn
    rw [rsvp_mem_no] at hn
    rw [rsvp_mem_maybe]
    rcases hn with ⟨hst, rfl⟩ | ⟨hv, hne⟩
    · rintro (⟨hst2, -⟩ | ⟨-, hne⟩)
      · cases hst ▸ hst2
      · exact hne rfl
    · rintro (⟨-, rfl⟩ | ⟨hv2, -⟩)
      · exact hne rfl
      · exact h2 hv hv2

lemma rsvp_request_preserves_atMostOne (es : EventState) (u : User) (st : RSVPStatus)
    (now : Int) (v : Nat) (h : atMostOneRSVP es.event v) :
    atMostOneRSVP (rsvp_request es u st now).2.event v := by
  unfold rsvp_request
  split
  · exact rsvp_preserves_atMostOne es u.id st now v h
  · exact h

lemma applyRSVPs_preserves_atMostOne (ops : List (User × RSVPStatus × Int)) :
    ∀ (es : EventState), (∀ v, atMostOneRSVP es.event v) →
      ∀ v, atMostOneRSVP (applyRSVPs es ops).event v := by
  induction ops with
  | nil => intro es h v; exact h v
  | cons op rest ih =>
    intro es h v
    have hstep : ∀ w, atMostOneRSVP ((rsvp_request es op.1 op.2.1 op.2.2).2).event w :=
      fun w => rsvp_request_preserves_atMostOne es op.1 op.2.1 op.2.2 w (h w)
    exact ih _ hstep v

/-! ### Concrete sample data for witnesses and counterexamples -/

/-- A non-staff active user with id 5. -/
def alice : User := ⟨5, false, true⟩

/-- A public upcoming event (day 1, midnight) with empty RSVP sets. -/
def event0 : Event :=
  { date := 1, time := 0, is_active := true,
    rsvp_yes := ∅, rsvp_no := ∅, rsvp_maybe := ∅,
    visible_to_groups := [], visible_to_users := ∅,
    is_public := true, created_by := 0 }

/-- Fresh state for `event0`: no RSVPs, no log rows. -/
def esInit : EventState := { event := event0, rsvp_logs := [] }

/-- The spec scenario: on the fresh upcoming event, user 5 RSVPs
`yes` (at time 0) and then `maybe` (at time 10), through the
permission-gated endpoint. -/
def scenarioState : EventState :=
  (rsvp_request (rsvp_request esInit alice .yes 0).2 alice .maybe 10).2

/-- The same event but dated in the past (day -1). -/
def esPast : EventState :=
  { event := { event0 with date := -1 }, rsvp_logs := [] }

/-! ### Claim C1 -/

/-- C1 counterexample: the claim says a single successful `rsvp` call
appends exactly one `EventRSVPLog` row and the yes-then-maybe scenario
ends with exactly two log rows (null→yes), (yes→maybe).  On the code,
the m2m `post_add` signal handler also creates a row with
`old_status=None` on every add, so the scenario ends with FOUR rows:
(null→yes) from the signal, (null→yes) from the view, (null→maybe)
from the signal, (yes→maybe) from the view — while the membership part
(user only in the maybe set) does hold. -/
theorem rsvp_scenario_four_log_rows :
    scenarioState.rsvp_logs =
      [⟨5, none, .yes, 0⟩, ⟨5, none, .yes, 0⟩,
       ⟨5, none, .maybe, 10⟩, ⟨5, some .yes, .maybe, 10⟩] ∧
    scenarioState.rsvp_logs.length = 4 ∧
    5 ∈ scenarioState.event.rsvp_maybe ∧
    5 ∉ scenarioState.event.rsvp_yes ∧
    5 ∉ scenarioState.event.rsvp_no := by decide

/-- C1 (amended): every successful `rsvp` call appends exactly two
`EventRSVPLog` rows — first the signal row with `old_status` null, then
the view row recording the user's true previous status (or null) as
`old_status` and the requested status as `new_status` — and afterwards
the user belongs to the requested RSVP set and to no other. -/
theorem rsvp_appends_two_log_rows (es : EventState) (uid : Nat)
    (st : RSVPStatus) (now : Int) :
    (rsvp es uid st now).rsvp_logs =
      es.rsvp_logs ++
        [⟨uid, none, st, now⟩,
         ⟨uid, es.event.get_user_rsvp_status uid, st, now⟩] ∧
    (uid ∈ (rsvp es uid st now).event.rsvp_yes ↔ st = .yes) ∧
    (uid ∈ (rsvp es uid st now).event.rsvp_no ↔ st = .no) ∧
    (uid ∈ (rsvp es uid st now).event.rsvp_maybe ↔ st = .maybe) := by
  refine ⟨rsvp_logs_eq es uid st now, ?_, ?_, ?_⟩
  · rw [rsvp_mem_yes]; simp
  · rw [rsvp_mem_no]; simp
  · rw [rsvp_mem_maybe]; simp

/-! ### Claim C3 -/

/-- C3: after any finite sequence of `rsvp` endpoint calls (any users,
any statuses, any times, each executed to completion) starting from a
state where every user is in at most one RSVP set, every user is still
in at most one of `rsvp_yes`, `rsvp_no`, `rsvp_maybe`. -/
theorem rsvp_sets_mutually_exclusive (es : EventState)
    (h : ∀ v, atMostOneRSVP es.event v)
    (ops : List (User × RSVPStatus × Int)) (v : Nat) :
    atMostOneRSVP (applyRSVPs es ops).event v :=
  applyRSVPs_preserves_atMostOne ops es h v

theorem rsvp_sets_mutually_exclusive_witness :
    atMostOneRSVP
      (applyRSVPs esInit
        [(alice, .yes, 0), (alice, .maybe, 10), (⟨6, false, true⟩, .no, 20)]).event 5 :=
  rsvp_sets_mutually_exclusive esInit
    (by intro v; simp [atMostOneRSVP, esInit, event0]) _ 5

/-! ### Claim C8 -/

/-- C8: the `rsvp` endpoint succeeds exactly when the user can view the
event and the event's date+time is still strictly in the future; a
denied attempt (403) leaves the event state — RSVP sets and log —
unchanged. -/
theorem rsvp_permitted_iff (es : EventState) (u : User)
    (st : RSVPStatus) (now : Int) :
    ((rsvp_request es u st now).1 = true ↔
      (es.event.user_can_view u = true ∧
        es.event.date * 86400 + es.event.time > now)) ∧
    ((rsvp_request es u st now).1 = false → (rsvp_request es u st now).2 = es) := by
  unfold rsvp_request
  split
  case isTrue h =>
    simp only [can_rsvp_to_event, Bool.and_eq_true, Event.is_upcoming,
      decide_eq_true_eq] at h
    exact ⟨by simp [h.1, h.2], by simp⟩
  case isFalse h =>
    simp only [can_rsvp_to_event, Bool.and_eq_true, Event.is_upcoming,
      decide_eq_true_eq] at h
    exact ⟨by simpa using h, fun _ => rfl⟩

theorem rsvp_permitted_iff_witness :
    (rsvp_request esPast alice .yes 0).1 = false ∧
    (rsvp_request esPast alice .yes 0).2 = esPast :=
  ⟨by decide, (rsvp_permitted_iff esPast alice .yes 0).2 (by decide)⟩

/-- A published, active broadcast to all, live on [0,100], created by
user 0, fresh engagement state. -/
def broadcast0 : Broadcast :=
  { start_date := 0, end_date := 100, audience_type := .all,
    target_groups := [], target_users := ∅,
    acknowledged_by := ∅, viewed_by := ∅,
    is_published := true, is_active := true, created_by := 0 }

/-- Fresh state for `broadcast0`: nobody viewed it, no log rows. -/
def bsInit : BroadcastState := { broadcast := broadcast0, view_logs := [] }

/-- `broadcast0` already acknowledged by user 5. -/
def bsAck : BroadcastState :=
  { broadcast := { broadcast0 with acknowledged_by := {5} }, view_logs := [] }

/-! ### Claim C7 -/

/-- C7: `mark_viewed` is idempotent — a second call for the same
(broadcast, user) pair is the identity, and starting from a state where
the user has not viewed the broadcast and has no view-log row, one call
leaves exactly one membership entry and exactly one log row for that
user. -/
theorem mark_viewed_idempotent (bs : BroadcastState) (uid : Nat)
    (n1 : Int) (i1 : Option String) (n2 : Int) (i2 : Option String) :
    mark_viewed (mark_viewed bs uid n1 i1) uid n2 i2 = mark_viewed bs uid n1 i1 ∧
    (uid ∉ bs.broadcast.viewed_by →
      (bs.view_logs.filter (fun r => r.user == uid)).length = 0 →
      uid ∈ (mark_viewed bs uid n1 i1).broadcast.viewed_by ∧
      ((mark_viewed bs uid n1 i1).view_logs.filter (fun r => r.user == uid)).length = 1) := by
  constructor
  · by_cases hm : uid ∈ bs.broadcast.viewed_by
    · simp [mark_viewed, hm]
    · simp [mark_viewed, hm, Finset.mem_insert_self]
  · intro h0 hlen
    have hnil : bs.view_logs.filter (fun r => r.user == uid) = [] :=
      List.length_eq_zero.mp hlen
    have hany : bs.view_logs.any (fun r => r.user == uid) = false := by
      rw [Bool.eq_false_iff]
      intro hx
      obtain ⟨r, hr, hru⟩ := List.any_eq_true.mp hx
      have : r ∈ bs.view_logs.filter (fun x => x.user == uid) :=
        List.mem_filter.mpr ⟨hr, hru⟩
      simp [hnil] at this
    constructor
    · simp [mark_viewed, h0, Finset.mem_insert_self]
    · simp [mark_viewed, h0, hany, List.filter_append, hnil]

theorem mark_viewed_idempotent_witness :
    mark_viewed (mark_viewed bsInit 5 1 none) 5 2 none = mark_viewed bsInit 5 1 none ∧
    (5 ∈ (mark_viewed bsInit 5 1 none).broadcast.viewed_by ∧
      ((mark_viewed bsInit 5 1 none).view_logs.filter (fun r => r.user == 5)).length = 1) :=
  ⟨(mark_viewed_idempotent bsInit 5 1 none 2 none).1,
   (mark_viewed_idempotent bsInit 5 1 none 2 none).2 (by decide) (by decide)⟩

/-! ### Claim C9 -/

/-- C9: `acknowledge` makes the user's membership in the acknowledged
set equal to the requested boolean, changes nothing else (in particular
it appends no view-log row, and the `broadcast_acknowledged` signal
handler is a no-op), is a no-op when the user is already in the desired
state, and is idempotent. -/
theorem acknowledge_membership (bs : BroadcastState) (uid : Nat) (want : Bool) :
    (uid ∈ (acknowledge bs uid want).broadcast.acknowledged_by ↔ want = true) ∧
    (acknowledge bs uid want).view_logs = bs.view_logs ∧
    { (acknowledge bs uid want).broadcast with
        acknowledged_by := bs.broadcast.acknowledged_by } = bs.broadcast ∧
    ((uid ∈ bs.broadcast.acknowledged_by ↔ want = true) → acknowledge bs uid want = bs) ∧
    acknowledge (acknowledge bs uid want) uid want = acknowledge bs uid want := by
  refine ⟨?_, ?_, ?_, ?_, ?_⟩
  · cases want
    · simp [acknowledge, Finset.not_mem_erase]
    · simp [acknowledge, Finset.mem_insert_self]
  · cases want <;> simp [acknowledge]
  · cases want <;> rfl
  · intro hm
    cases want
    · have : uid ∉ bs.broadcast.acknowledged_by := by simpa using hm
      simp [acknowledge, Finset.erase_eq_self.mpr this]
    · have : uid ∈ bs.broadcast.acknowledged_by := by simpa using hm
      simp [acknowledge, Finset.insert_eq_self.mpr this]
  · cases want <;> simp [acknowledge, Finset.insert_idem, Finset.erase_idem]

theorem acknowledge_membership_witness :
    acknowledge bsAck 5 true = bsAck ∧
    (5 ∈ (acknowledge bsAck 5 true).broadcast.acknowledged_by ↔ true = true) :=
  ⟨(acknowledge_membership bsAck 5 true).2.2.2.1 (by decide),
   (acknowledge_membership bsAck 5 true).1⟩

/-! ### Claim C10 -/

/-- C10: the `mark_viewed` endpoint inherits the viewset's
`IsBroadcastOwnerOrAdmin` permission; POST is not a safe method, so for
an authenticated user who is neither staff nor the broadcast's creator
the object permission check denies the request (403) and the state is
unchanged. -/
theorem mark_viewed_forbidden_for_non_owner (bs : BroadcastState) (u : User)
    (now : Int) (ip : Option String)
    (hstaff : u.is_staff = false) (hown : bs.broadcast.created_by ≠ u.id) :
    (mark_viewed_request bs u now ip).1 = false ∧
    (mark_viewed_request bs u now ip).2 = bs := by
  have hsafe : is_safe_method "POST" = false := by decide
  have hperm : broadcast_has_object_permission "POST" u bs.broadcast now = false := by
    simp [broadcast_has_object_permission, hsafe, hstaff, hown]
  simp [mark_viewed_request, hperm]

theorem mark_viewed_forbidden_for_non_owner_witness :
    (mark_viewed_request bsInit alice 0 none).1 = false ∧
    (mark_viewed_request bsInit alice 0 none).2 = bsInit :=
  mark_viewed_forbidden_for_non_owner bsInit alice 0 none (by decide) (by decide)

/-- A staff (admin) active user with id 7. -/
def adminUser : User := ⟨7, true, true⟩

/-- `broadcast0` with the published flag off. -/
def broadcastUnpublished : Broadcast := { broadcast0 with is_published := false }

/-- A group whose only member is user 5. -/
def g1 : Group := ⟨1, {5}, ∅⟩

/-- `broadcast0` targeted at the single user 1 but acknowledged by two
users, 1 and 2. -/
def broadcastOverAck : Broadcast :=
  { broadcast0 with audience_type := .users,
                    target_users := {1}, acknowledged_by := {1, 2} }

/-! ### Claim C2 -/

/-- C2 counterexample: the claim says `canView(admin, anyEntity)` is
always true, but `can_view_broadcast` has no staff branch — a staff
user cannot view an unpublished broadcast — and `Event.user_can_view`
has no staff branch either — a staff user cannot view a non-public
event they did not create and are not targeted by. -/
theorem staff_cannot_view_unpublished_broadcast :
    adminUser.is_staff = true ∧
    can_view_broadcast adminUser broadcastUnpublished 50 = false ∧
    Event.user_can_view { event0 with is_public := false } adminUser = false := by
  decide

/-- C2 (amended): the object-level view predicates ignore the staff
flag entirely — `can_view_broadcast` and `Event.user_can_view` give the
same answer whatever the user's flags, as they read only the user id —
while the admin override lives in the queryset methods: a staff user's
queryset is the whole active table, bypassing liveness, visibility
flags and targeting. -/
theorem staff_override_only_in_queryset :
    (∀ (n : Nat) (s1 s2 a1 a2 : Bool) (b : Broadcast) (now : Int),
      can_view_broadcast ⟨n, s1, a1⟩ b now = can_view_broadcast ⟨n, s2, a2⟩ b now) ∧
    (∀ (e : Event) (n : Nat) (s1 s2 a1 a2 : Bool),
      e.user_can_view ⟨n, s1, a1⟩ = e.user_can_view ⟨n, s2, a2⟩) ∧
    (∀ (u : User) (table : List Broadcast), u.is_staff = true →
      broadcast_get_queryset u table = table.filter (fun b => b.is_active)) ∧
    (∀ (u : User) (table : List Event), u.is_staff = true →
      event_get_queryset u table = table.filter (fun e => e.is_active)) := by
  refine ⟨fun n s1 s2 a1 a2 b now => rfl, fun e n s1 s2 a1 a2 => rfl, ?_, ?_⟩
  · intro u table h; simp [broadcast_get_queryset, h]
  · intro u table h; simp [event_get_queryset, h]

theorem staff_override_only_in_queryset_witness :
    broadcast_get_queryset adminUser [broadcastUnpublished] = [broadcastUnpublished] ∧
    can_view_broadcast ⟨7, true, true⟩ broadcast0 0 =
      can_view_broadcast ⟨7, false, true⟩ broadcast0 0 :=
  ⟨(staff_override_only_in_queryset.2.2.1 adminUser [broadcastUnpublished]
      (by decide)).trans (by decide),
   staff_override_only_in_queryset.1 7 true false true true broadcast0 0⟩

/-! ### Claim C4 -/

/-- C4 counterexample: the claim says the rate is clamped to [0,100],
but the code has no clamp: with one targeted user and two acknowledging
users (possible since acknowledgers need not stay in the audience) the
rate is 200. -/
theorem acknowledgment_rate_exceeds_100 :
    acknowledgment_rate ⟨[]⟩ broadcastOverAck = 200 ∧
    ¬(acknowledgment_rate ⟨[]⟩ broadcastOverAck ≤ 100) := by
  have hcard : broadcastOverAck.acknowledged_by.card = 2 := by decide
  have htot : total_recipients ⟨[]⟩ broadcastOverAck = 1 := by decide
  constructor <;>
  · simp only [acknowledgment_rate, htot, hcard]
    norm_num

/-- C4 (amended): `acknowledgment_rate` is 0 when `total_recipients` is
0 and otherwise exactly `100 * acknowledged_count / total_recipients`
in exact rational arithmetic; it is never negative but it is NOT
clamped above, so it can exceed 100. -/
theorem acknowledgment_rate_formula (env : Env) (b : Broadcast) :
    (total_recipients env b = 0 → acknowledgment_rate env b = 0) ∧
    (total_recipients env b ≠ 0 →
      acknowledgment_rate env b =
        100 * (b.acknowledged_by.card : ℚ) / (total_recipients env b : ℚ)) ∧
    0 ≤ acknowledgment_rate env b := by
  refine ⟨?_, ?_, ?_⟩
  · intro h; simp [acknowledgment_rate, h]
  · intro h; simp [acknowledgment_rate, h]; ring
  · by_cases h : total_recipients env b = 0
    · simp [acknowledgment_rate, h]
    · simp only [acknowledgment_rate, h, if_false]
      positivity

theorem acknowledgment_rate_formula_witness :
    acknowledgment_rate ⟨[]⟩ broadcast0 = 0 :=
  (acknowledgment_rate_formula ⟨[]⟩ broadcast0).1 (by decide)

/-! ### Claim C5 -/

lemma daily_views_aux_length (rows : List BroadcastView) (n : Nat) :
    ∀ current : Int, (daily_views_aux rows current n).length = n := by
  induction n with
  | zero => intro current; rfl
  | succ n ih => intro current; simp [daily_views_aux, ih]

lemma daily_views_aux_get (rows : List BroadcastView) (n : Nat) :
    ∀ (current : Int) (i : Nat), i < n →
      (daily_views_aux rows current n)[i]? =
        some (current + i,
          (rows.filter (fun r => dateOf r.viewed_at == current + i)).length) := by
  induction n with
  | zero => intro current i hi; omega
  | succ n ih =>
    intro current i hi
    cases i with
    | zero => simp [daily_views_aux]
    | succ i =>
      have harith : current + 1 + (i : Int) = current + ((i : Int) + 1) := by ring
      have := ih (current + 1) i (by omega)
      simp only [daily_views_aux, List.getElem?_cons_succ]
      rw [this, harith]
      push_cast
      ring_nf

/-- C5 counterexample: the claim says the `daily_views` series has
exactly 30 buckets; on the code `start_date = today - 30` and the loop
runs while `current_date <= today`, producing 31 buckets. -/
theorem daily_views_has_31_buckets :
    (broadcast_daily_views [] 100).length = 31 ∧
    ¬((broadcast_daily_views [] 100).length = 30) := by decide

/-- C5 (amended): `daily_views` is a fixed 31-day trailing window
inclusive of today — one bucket per calendar day from `today - 30`
through `today`, in order — where bucket `i` carries day
`today - 30 + i` and the number of view-log rows whose timestamp falls
on that day (0 when there are none, the day still being present). -/
theorem daily_views_window (rows : List BroadcastView) (today : Int) :
    (broadcast_daily_views rows today).length = 31 ∧
    (∀ i : Nat, i < 31 →
      (broadcast_daily_views rows today)[i]? =
        some (today - 30 + i,
          (rows.filter (fun r => dateOf r.viewed_at == today - 30 + i)).length)) := by
  have h1 : broadcast_daily_views rows today = daily_views_aux rows (today - 30) 31 := by
    simp only [broadcast_daily_views]
    rw [show (today - (today - 30) + 1).toNat = 31 from by omega]
  constructor
  · rw [h1, daily_views_aux_length]
  · intro i hi
    rw [h1, daily_views_aux_get rows 31 (today - 30) i hi]

theorem daily_views_window_witness :
    (broadcast_daily_views [] 100).length = 31 ∧
    (broadcast_daily_views [] 100)[0]? = some (70, 0) :=
  ⟨(daily_views_window [] 100).1,
   ((daily_views_window [] 100).2 0 (by norm_num)).trans (by norm_num)⟩

/-! ### Claim C6 -/

/-- `broadcast0` with `audience_type = users`, an empty `target_users`
set, and `g1` (whose member is user 5) as a target group. -/
def broadcastUsersMode : Broadcast :=
  { broadcast0 with audience_type := .users,
                    target_groups := [g1], target_users := ∅ }

/-- C6 counterexample: the claim's window is the half-open [start, end)
— "not visible at the exact instant now = end" — but `is_visible` uses
`start_date <= now <= end_date`, so a live targeted non-creator
non-staff user CAN view the broadcast at `now = end_date`; moreover the
claim's targeting clause is a plain disjunction, while the code
dispatches on `audience_type`: with `audience_type = users` a user who
is only a member of a target group is NOT targeted. -/
theorem broadcast_visible_at_end_instant :
    alice.is_staff = false ∧ broadcast0.created_by ≠ alice.id ∧
    broadcast0.end_date = 100 ∧
    can_view_broadcast alice broadcast0 100 = true ∧
    (broadcastUsersMode.target_groups.any
        (fun g => decide (alice.id ∈ g.members)) = true ∧
      can_view_broadcast alice broadcastUsersMode 50 = false) := by decide

/-- C6 (amended): for any user — the code in fact never checks the
creator or the staff flag here — `can_view_broadcast` holds exactly
when the current time lies in the CLOSED window [start, end],
`is_published` and `is_active` are set, and the user is targeted
according to the audience mode (`all`: everyone; `groups`: member of
some target group; `users`: listed in `target_users`). -/
theorem can_view_broadcast_iff (u : User) (b : Broadcast) (now : Int)
    (_hstaff : u.is_staff = false) (_hown : b.created_by ≠ u.id) :
    can_view_broadcast u b now = true ↔
      (b.start_date ≤ now ∧ now ≤ b.end_date ∧ b.is_published = true ∧
        b.is_active = true ∧ broadcastTargeted u b) := by
  unfold can_view_broadcast Broadcast.is_visible broadcastTargeted
  cases haud : b.audience_type <;>
    simp [haud, List.any_eq_true, Bool.and_eq_true, decide_eq_true_eq] <;>
    tauto

theorem can_view_broadcast_iff_witness :
    can_view_broadcast alice broadcast0 0 = true :=
  (can_view_broadcast_iff alice broadcast0 0 (by decide) (by decide)).mpr
    ⟨by decide, by decide, by decide, by decide, by trivial⟩

end Communication
